import Mathlib

/-!
Verification of the KidSafe Alphabet Tutor core services.

This file shallowly embeds the tutoring-session orchestration engine:
the curriculum store (`curriculum_service.py`), the bounded session memory
(`memory_service.py`), the safety filter (`safety_service.py`), the phoneme
scorer (`phoneme_service.py`) and the orchestrator (`agent_service.py`).
Python strings are modelled as Lean `String`s; the Python string methods used
by the code (`lower`, `upper`, `strip`, `split`, `in`, `isalpha`,
`capitalize`) are re-implemented below on `List Char` so that every
definition reduces in the kernel.  These helpers agree with CPython on the
ASCII inputs this code base works with.
-/

namespace KidSafe

/-- Result of a Python call: either a returned value or a raised exception
(`TypeError`, `KeyError`, ...). -/
inductive PyResult (α : Type) where
  | ok (val : α)
  | exn
  deriving DecidableEq, Repr

/-! ### Python string primitives -/

/-- Does the second list start with the first one? (helper for `containsCL`). -/
def startsWithCL : List Char → List Char → Bool
  | [], _ => true
  | _ :: _, [] => false
  | p :: ps, c :: cs => p == c && startsWithCL ps cs

/-- Does `pat` occur as a contiguous run inside the second list? -/
def containsCL (pat : List Char) : List Char → Bool
  | [] => startsWithCL pat []
  | c :: cs => startsWithCL pat (c :: cs) || containsCL pat cs

/-- Python `pat in s` (substring containment). -/
def pyIn (pat s : String) : Bool :=
  containsCL pat.toList s.toList

/-- Python `s.lower()` (per-character, ASCII). -/
def pyLower (s : String) : String :=
  String.mk (s.toList.map Char.toLower)

/-- Python `s.upper()` (per-character, ASCII). -/
def pyUpper (s : String) : String :=
  String.mk (s.toList.map Char.toUpper)

/-- Python `s.strip()`: remove leading and trailing whitespace. -/
def pyStrip (s : String) : String :=
  String.mk (((s.toList.dropWhile Char.isWhitespace).reverse.dropWhile
    Char.isWhitespace).reverse)

/-- Python `s.isalpha()` (restricted to ASCII letters, which is all the
name-extraction heuristic ever accepts in practice). -/
def pyIsAlpha (s : String) : Bool :=
  !s.toList.isEmpty && s.toList.all Char.isAlpha

/-- Python `s.capitalize()`: first character upper-cased, rest lower-cased. -/
def pyCapitalize (s : String) : String :=
  match s.toList with
  | [] => ""
  | c :: cs => String.mk (c.toUpper :: cs.map Char.toLower)

/-- First whitespace-delimited token of `s`; models `s.split()[0]` (all call
sites guard `s` to be non-empty after stripping, so the index is in range). -/
def pyFirstWord (s : String) : String :=
  String.mk ((s.toList.dropWhile Char.isWhitespace).takeWhile
    (fun c => !c.isWhitespace))

/-- Tail after the last occurrence of `sep` (`none` when `sep` never occurs).
Helper for `pySplitTail`. -/
def tailAfterLastAux (sep : List Char) : List Char → Option (List Char)
  | [] => none
  | c :: cs =>
    match tailAfterLastAux sep cs with
    | some r => some r
    | none =>
      if startsWithCL sep (c :: cs) then some ((c :: cs).drop sep.length)
      else none

/-- Python `s.split(sep)[-1]`: the segment after the final occurrence of
`sep`, or `s` itself when `sep` does not occur.  (For the separators used by
the code — "my name is", "i'm", "i am" — this coincides with CPython's
non-overlapping left-to-right scan, since none of them overlaps itself.) -/
def pySplitTail (s sep : String) : String :=
  match tailAfterLastAux sep.toList s.toList with
  | some r => String.mk r
  | none => s

/-- Python `l[-n:]` on lists: the whole list when `n = 0` (as in CPython,
where `l[-0:] = l`), otherwise the last `n` elements. -/
def pyTail (n : Nat) (l : List α) : List α :=
  if n = 0 then l else l.drop (l.length - n)

/-! ### Curriculum Store (`curriculum_service.py`) -/

/-- One lesson entry of the lesson table (`lessons.json` / default table). -/
structure Lesson where
  phoneme_clue : String
  examples : List String
  activity : String
  prompt : String
  deriving DecidableEq, Repr

/-- The lesson table: a Python dict keyed by uppercase letter. -/
abbrev Lessons := List (String × Lesson)

/-- Models `CurriculumService._get_default_lessons`: fallback table used when the
lessons file is missing or malformed. -/
def default_lessons : Lessons :=
  [("A",
    { phoneme_clue := "ah"
      examples := ["Apple", "Ant", "Alligator"]
      activity := "Can you find something in the room that starts with the letter A?"
      prompt := "This is the letter A. It makes the \x27ah\x27 sound, like in apple. Can you say \x27ah\x27?" })]

/-- Outcome of reading and parsing the backing lessons file (the file system
and JSON parser are external to the core). -/
inductive FileLoad where
  | ok (lessons : Lessons)
  | fileNotFound
  | jsonDecodeError

/-- Models `CurriculumService._load_lessons`: returns the parsed table, falling back
to `default_lessons` on `FileNotFoundError` and on `json.JSONDecodeError`. -/
def load_lessons : FileLoad → Lessons
  | .ok lessons => lessons
  | .fileNotFound => default_lessons
  | .jsonDecodeError => default_lessons

/-- Models `CurriculumService._build_phoneme_map`: for each letter, the accepted
sounds are the lowered phoneme clue, the lowered letter itself, and the
lowered example words. -/
def build_phoneme_map (lessons : Lessons) : List (String × List String) :=
  lessons.map (fun p =>
    (p.1, pyLower p.2.phoneme_clue :: pyLower p.1 :: p.2.examples.map pyLower))

/-- The state of a `CurriculumService` instance: the lesson table together
with the phoneme map derived from it in `__init__` / `reload_lessons`. -/
structure CurriculumService where
  lessons : Lessons
  phoneme_map : List (String × List String)

/-- Models `CurriculumService.reload_lessons`: re-reads the lesson table and rebuilds
the phoneme map.  `_load_lessons` swallows both of its anticipated errors by
returning the default table, and the assignments cannot raise, so the
surrounding `try` always returns `True`. -/
def CurriculumService.reload_lessons (c : CurriculumService) (r : FileLoad) :
    CurriculumService × Bool :=
  let lessons := load_lessons r
  ({ c with lessons := lessons, phoneme_map := build_phoneme_map lessons }, true)

/-- Models `CurriculumService.get_lesson`. -/
def CurriculumService.get_lesson (c : CurriculumService) (letter : String) :
    Option Lesson :=
  c.lessons.lookup (pyUpper letter)

/-- Models `CurriculumService.check_pronunciation`: accepts iff any of the target
letter's sounds occurs as a substring of the lowered user input. -/
def CurriculumService.check_pronunciation (c : CurriculumService)
    (user_input target_letter : String) : Bool × String :=
  let user_lower := pyLower user_input
  let target_sounds := (c.phoneme_map.lookup (pyUpper target_letter)).getD []
  match target_sounds.find? (fun sound => pyIn sound user_lower) with
  | some _ =>
    (true, "Great job! You said the " ++ target_letter ++ " sound correctly!")
  | none =>
    let phoneme_clue :=
      match c.get_lesson target_letter with
      | some lesson => lesson.phoneme_clue
      | none => pyLower target_letter
    (false, "Close! Try the \x27" ++ phoneme_clue ++ "\x27 sound for " ++
      target_letter ++ ". You can do it!")

/-- Models `CurriculumService.get_next_letter`: `""` yields `"A"`, `"Z"` yields
`None`, any other letter yields its successor.  `ord` on a string whose
length is not 1 raises `TypeError`, modelled by `.exn`. -/
def get_next_letter (current_letter : String) : PyResult (Option String) :=
  if current_letter = "" then .ok (some "A")
  else
    match (pyUpper current_letter).toList with
    | [c] =>
      if c.toNat + 1 ≤ 90 then .ok (some (String.mk [Char.ofNat (c.toNat + 1)]))
      else .ok none
    | _ => .exn

/-! ### Session Memory (`memory_service.py`)

Wall-clock timestamps (`datetime.now().isoformat()`, `session_start`) are
external inputs used only for logging and duration statistics; they are not
modelled.  A Python dict keyed by strings is modelled as a function
`String → Option _`. -/

/-- One entry of a session's `history` list (timestamp omitted, see above). -/
structure TurnEntry where
  type : String
  text : String
  deriving DecidableEq, Repr

/-- The `derived_state` dict of a session (without `session_start`). -/
structure DerivedState where
  current_letter : String
  child_name : Option String
  difficulty : String
  last_mistake : Option String
  total_interactions : Nat
  deriving DecidableEq, Repr

/-- Derived state of a freshly created session (`MemoryService.get_session`). -/
def initial_derived_state : DerivedState :=
  { current_letter := "A"
    child_name := none
    difficulty := "easy"
    last_mistake := none
    total_interactions := 0 }

/-- One session: conversation history plus derived state. -/
structure Session where
  history : List TurnEntry
  derived_state : DerivedState
  deriving DecidableEq, Repr

/-- The state of a `MemoryService` instance. -/
structure MemoryService where
  max_turns : Nat
  sessions : String → Option Session

/-- Overwrite (or create) the session stored under `sid`. -/
def MemoryService.setSession (m : MemoryService) (sid : String) (s : Session) :
    MemoryService :=
  { m with sessions := fun k => if k = sid then some s else m.sessions k }

/-- Models `MemoryService.get_session`: lazily creates the session on first access. -/
def MemoryService.get_session (m : MemoryService) (sid : String) :
    Session × MemoryService :=
  match m.sessions sid with
  | some s => (s, m)
  | none =>
    let fresh : Session := { history := [], derived_state := initial_derived_state }
    (fresh, m.setSession sid fresh)

/-- The name-extraction block of `MemoryService._update_derived_state`: the
capitalized name the loop assigns, if any candidate passes the filter.  The
loop writes `state["child_name"]` exactly when this returns `some`. -/
def extract_child_name (user_lower : String) : Option String :=
  if pyIn "my name is" user_lower || pyIn "i\x27m" user_lower ||
      pyIn "i am" user_lower then
    let candidates_of := fun (phrase : String) =>
      if pyIn phrase user_lower then
        let name_part := pyStrip (pySplitTail user_lower phrase)
        if name_part ≠ "" then [pyFirstWord name_part] else []
      else []
    let name_candidates :=
      candidates_of "my name is" ++ candidates_of "i\x27m" ++ candidates_of "i am"
    match name_candidates.find?
        (fun c => c ≠ "" && pyIsAlpha c && c.length > 1) with
    | some c => some (pyCapitalize c)
    | none => none
  else none

/-- The mistake-tracking block of `MemoryService._update_derived_state`. -/
def track_mistake (st : DerivedState) (user_input assistant_response : String) :
    DerivedState :=
  if ["try again", "not quite", "almost"].any
      (fun w => pyIn w (pyLower assistant_response)) then
    { st with last_mistake := some user_input }
  else if ["great", "excellent", "perfect"].any
      (fun w => pyIn w (pyLower assistant_response)) then
    { st with last_mistake := none }
  else st

/-- Models `MemoryService._update_derived_state`: heuristic extraction of the child's
name from the user text, then the mistake-tracking signal from the assistant
text (the source inlines both blocks in one method body). -/
def update_derived_state (st : DerivedState) (user_input assistant_response : String) :
    DerivedState :=
  let user_lower := pyLower user_input
  let st :=
    match extract_child_name user_lower with
    | some name => { st with child_name := some name }
    | none => st
  track_mistake st user_input assistant_response

/-- Models `MemoryService.add_turn`: unconditionally appends the user and assistant
entries, trims the window to the last `max_turns * 2` entries, updates the
derived state and increments `total_interactions`. -/
def MemoryService.add_turn (m : MemoryService) (sid user_input assistant_response : String) :
    MemoryService :=
  let (session, m) := m.get_session sid
  let history := session.history ++
    [{ type := "user", text := user_input },
     { type := "assistant", text := assistant_response }]
  let max_entries := m.max_turns * 2
  let history := pyTail max_entries history
  let ds := update_derived_state session.derived_state user_input assistant_response
  let ds := { ds with total_interactions := ds.total_interactions + 1 }
  m.setSession sid { history := history, derived_state := ds }

/-- Models `MemoryService.progress_letter`: unconditionally overwrites the current
letter (the `from` argument is only logged) and returns `True`. -/
def MemoryService.progress_letter (m : MemoryService) (sid to_letter : String) :
    MemoryService × Bool :=
  let (session, m) := m.get_session sid
  (m.setSession sid
    { session with derived_state :=
        { session.derived_state with current_letter := to_letter } }, true)

/-- Models `MemoryService.get_derived_state`: a copy of the session's derived state
(creating the session if needed). -/
def MemoryService.get_derived_state (m : MemoryService) (sid : String) :
    DerivedState × MemoryService :=
  let (session, m) := m.get_session sid
  (session.derived_state, m)

/-- Models `MemoryService.get_conversation_history`: the window, or its last `limit`
entries when `limit` is truthy (Python `if limit:` treats `0` as falsy). -/
def MemoryService.get_conversation_history (m : MemoryService) (sid : String)
    (limit : Option Nat) : List TurnEntry × MemoryService :=
  let (session, m) := m.get_session sid
  match limit with
  | some n => if n ≠ 0 then (pyTail n session.history, m) else (session.history, m)
  | none => (session.history, m)

/-! ### Safety Filter (`safety_service.py`)

The profanity detector/censor (`better_profanity`) and the PII regular
expressions (`re`) are external libraries; they are modelled as opaque
function parameters of the service state.  The unsafe-topic detector is pure
substring matching over a fixed list and is modelled concretely. -/

/-- One compiled PII pattern: `re.search` as a predicate and `re.sub` with the
`[REMOVED]` replacement as a rewriter. -/
structure RegexPat where
  search : String → Bool
  sub : String → String

/-- The state of a `SafetyService` instance.  `contains_profanity` and
`censor` model the `better_profanity` calls. -/
structure SafetyService where
  contains_profanity : String → Bool
  censor : String → String
  pii_patterns : List RegexPat

/-- The `unsafe_topics` list of `SafetyService.__init__`. -/
def restricted_topics : List String :=
  ["violence", "scary", "death", "blood", "weapon", "gun", "knife",
   "stranger", "secret", "password", "address", "phone number",
   "where do you live", "what school", "parents work"]

/-- Python `topic.replace(" ", "_")` (all occurrences, single characters). -/
def replaceSpaceWithUnderscore (s : String) : String :=
  String.mk (s.toList.map (fun c => if c = ' ' then '_' else c))

/-- Models `SafetyService._detect_pii`: appends `"pii_detected"` once and breaks on
the first matching pattern. -/
def SafetyService.detect_pii (s : SafetyService) (text : String) : List String :=
  if s.pii_patterns.any (fun p => p.search text) then ["pii_detected"] else []

/-- Models `SafetyService._remove_pii`: applies every pattern's substitution in
order. -/
def SafetyService.remove_pii (s : SafetyService) (text : String) : String :=
  s.pii_patterns.foldl (fun acc p => p.sub acc) text

/-- Models `SafetyService._detect_unsafe_topics`: one topic-specific code per topic
that occurs in the lowered text. -/
def detect_restricted_topics (text : String) : List String :=
  let text_lower := pyLower text
  restricted_topics.filterMap (fun topic =>
    if pyIn topic text_lower then
      some ("unsafe_topic_" ++ replaceSpaceWithUnderscore topic)
    else none)

/-- Return value of `SafetyService.moderate_content`. -/
structure ModerationResult where
  is_safe : Bool
  cleaned_text : String
  violations : List String
  deriving Repr

/-- Models `SafetyService.moderate_content`: the three-stage pipeline.  All stages
run unconditionally; `is_safe` is `len(violations) == 0`. -/
def SafetyService.moderate_content (s : SafetyService) (text : String) :
    ModerationResult :=
  let violations : List String := []
  let cleaned_text := text
  let pr :=
    if s.contains_profanity text then
      (violations ++ ["inappropriate_language"], s.censor text)
    else (violations, cleaned_text)
  let violations := pr.1
  let cleaned_text := pr.2
  let pii_found := s.detect_pii text
  let pr :=
    if pii_found ≠ [] then (violations ++ pii_found, s.remove_pii cleaned_text)
    else (violations, cleaned_text)
  let violations := pr.1
  let cleaned_text := pr.2
  let risky_found := detect_restricted_topics text
  let violations :=
    if risky_found ≠ [] then violations ++ risky_found else violations
  { is_safe := violations.length == 0
    cleaned_text := cleaned_text
    violations := violations }

/-! ### Pronunciation/Phoneme Scorer (`phoneme_service.py`)

`_calculate_accuracy` works on IEEE doubles in the source; it is embedded
over `ℚ`.  Over the values reachable from the A–Z phoneme table (expected
sets of size 1 or 2) every intermediate value has an exact two-decimal
representation, so `round(x, 2)` is the identity there and no rounding-mode
or representation issue can distinguish the two readings; the rounding is
nevertheless modelled (`round2`). -/

/-- The `letter_phonemes` table of `PhonemeService.__init__`. -/
def letter_phonemes : List (String × List String) :=
  [("A", ["/eɪ/", "/æ/"]), ("B", ["/biː/"]), ("C", ["/siː/"]),
   ("D", ["/diː/"]), ("E", ["/iː/", "/ɛ/"]), ("F", ["/ɛf/"]),
   ("G", ["/dʒiː/"]), ("H", ["/eɪtʃ/"]), ("I", ["/aɪ/", "/ɪ/"]),
   ("J", ["/dʒeɪ/"]), ("K", ["/keɪ/"]), ("L", ["/ɛl/"]), ("M", ["/ɛm/"]),
   ("N", ["/ɛn/"]), ("O", ["/oʊ/", "/ɒ/"]), ("P", ["/piː/"]),
   ("Q", ["/kjuː/"]), ("R", ["/ɑːr/"]), ("S", ["/ɛs/"]), ("T", ["/tiː/"]),
   ("U", ["/juː/", "/ʌ/"]), ("V", ["/viː/"]), ("W", ["/dʌbəljuː/"]),
   ("X", ["/ɛks/"]), ("Y", ["/waɪ/"]), ("Z", ["/ziː/", "/zɛd/"])]

/-- The `phoneme_patterns` table of `PhonemeService.__init__`. -/
def phoneme_patterns : List (String × List String) :=
  [("/eɪ/", ["ay", "a_e", "ai"]), ("/æ/", ["a"]),
   ("/iː/", ["ee", "ea", "e_e"]), ("/ɛ/", ["e"]),
   ("/aɪ/", ["i_e", "igh", "y"]), ("/ɪ/", ["i"]),
   ("/oʊ/", ["o_e", "oa", "ow"]), ("/ɒ/", ["o"]),
   ("/juː/", ["u_e", "ue"]), ("/ʌ/", ["u"])]

/-- Models `PhonemeService._detect_phonemes`: credit the target letter's phonemes
when the letter name occurs verbatim, credit a pattern's phoneme once per
matching spelling pattern, then deduplicate (`list(set(...))`; the set
iteration order is unspecified in CPython and irrelevant downstream, where
only `set(detected)` is used). -/
def detect_phonemes (transcript target_letter : String) : List String :=
  let detected :=
    if pyIn (pyLower target_letter) transcript then
      (letter_phonemes.lookup target_letter).getD []
    else []
  let detected := detected ++ phoneme_patterns.flatMap (fun p =>
    p.2.filterMap (fun pat => if pyIn pat transcript then some p.1 else none))
  detected.dedup

/-- Round a rational to two decimal places, as `round(x, 2)` does for the
exactly-representable values reachable here. -/
def round2 (q : ℚ) : ℚ :=
  (round (q * 100) : ℚ) / 100

/-- Models `PhonemeService._calculate_accuracy`. -/
def calculate_accuracy (detected expected : List String) : ℚ :=
  if expected = [] then 0
  else if detected = [] then 0
  else
    let num_matches := (detected.toFinset ∩ expected.toFinset).card
    let total_expected := expected.length
    let accuracy : ℚ := (num_matches : ℚ) / (total_expected : ℚ)
    let accuracy :=
      if detected.toFinset = expected.toFinset then min 1 (accuracy + 1/5)
      else accuracy
    round2 accuracy

/-! ### Tutoring Orchestrator (`agent_service.py`)

An `AgentService` instance holds a session id and references to the shared
curriculum and memory singletons; its methods are embedded as functions of
the curriculum state, the memory state and the session id. -/

/-- The metadata dict built by `AgentService.generate_response`.  The optional
dict keys `new_letter` and `curriculum_complete` are modelled by an `Option`
and a `Bool` that defaults to `false` (key absent). -/
structure Metadata where
  current_letter : String
  is_correct : Bool
  needs_practice : Bool
  progress_made : Bool
  new_letter : Option String := none
  curriculum_complete : Bool := false
  deriving DecidableEq, Repr

/-- Models `AgentService.generate_response`: pronunciation check against the current
letter, then letter progression bookkeeping. -/
def generate_response (cur : CurriculumService) (m : MemoryService)
    (sid user_input : String) : PyResult (MemoryService × String × Metadata) :=
  let dm := m.get_derived_state sid
  let state := dm.1
  let m := dm.2
  let current_letter := state.current_letter
  let cf := cur.check_pronunciation user_input current_letter
  let is_correct := cf.1
  let feedback := cf.2
  let metadata : Metadata :=
    { current_letter := current_letter
      is_correct := is_correct
      needs_practice := !is_correct
      progress_made := false }
  if is_correct then
    match get_next_letter current_letter with
    | .exn => .exn
    | .ok (some next_letter) =>
      let m := (m.progress_letter sid next_letter).1
      let metadata :=
        { metadata with progress_made := true, new_letter := some next_letter }
      let response :=
        match cur.get_lesson next_letter with
        | some next_lesson =>
          feedback ++ " Now let\x27s learn " ++ next_letter ++ "! " ++
            next_lesson.prompt
        | none =>
          feedback ++ " Great job! Let\x27s try the letter " ++ next_letter ++ "."
      .ok (m, response, metadata)
    | .ok none =>
      .ok (m, feedback ++ " Wow! You\x27ve learned the whole alphabet! You\x27re amazing!",
        { metadata with curriculum_complete := true })
  else
    .ok (m, feedback, metadata)

/-- The metadata dict built by `AgentService.handle_special_commands`. -/
structure SpecialMeta where
  type : String
  new_letter : Option String := none
  deriving DecidableEq, Repr

/-- Models `AgentService.handle_special_commands`: help / repeat / skip handling;
returns `none` when no special command matched (Python `return None`). -/
def handle_special_commands (cur : CurriculumService) (m : MemoryService)
    (sid user_input : String) :
    PyResult (MemoryService × Option (String × SpecialMeta)) :=
  let user_lower := pyStrip (pyLower user_input)
  if user_lower = "help" ∨ user_lower = "what do i do" ∨
      user_lower = "i don\x27t know" then
    let dm := m.get_derived_state sid
    let current_letter := dm.1.current_letter
    let m := dm.2
    match cur.get_lesson current_letter with
    | some lesson => .ok (m, some (lesson.prompt, { type := "help" }))
    | none => .ok (m, none)
  else if user_lower = "repeat" ∨ user_lower = "say that again" ∨
      user_lower = "what" then
    let hm := m.get_conversation_history sid (some 2)
    let history := hm.1
    let m := hm.2
    match history.getLast? with
    | some entry =>
      if entry.type = "assistant" then .ok (m, some (entry.text, { type := "repeat" }))
      else .ok (m, none)
    | none => .ok (m, none)
  else if pyIn "next letter" user_lower || pyIn "skip" user_lower then
    let dm := m.get_derived_state sid
    let current_letter := dm.1.current_letter
    let m := dm.2
    match get_next_letter current_letter with
    | .exn => .exn
    | .ok (some next_letter) =>
      let m := (m.progress_letter sid next_letter).1
      let prompt :=
        match cur.get_lesson next_letter with
        | some lesson => lesson.prompt
        | none => "Let\x27s try " ++ next_letter ++ "!"
      .ok (m, some ("Okay! " ++ prompt, { type := "skip", new_letter := some next_letter }))
    | .ok none => .ok (m, none)
  else
    .ok (m, none)

/-- One orchestrator operation on the shared memory state: a tutoring turn
(`generate_response`) or a special-command dispatch
(`handle_special_commands`), each for some session id. -/
inductive AgentOp where
  | respond (sid input : String)
  | special (sid input : String)

/-- The memory-state effect of one orchestrator operation. -/
def stepOp (cur : CurriculumService) (op : AgentOp) (m : MemoryService) :
    PyResult MemoryService :=
  match op with
  | .respond sid input =>
    match generate_response cur m sid input with
    | .ok r => .ok r.1
    | .exn => .exn
  | .special sid input =>
    match handle_special_commands cur m sid input with
    | .ok r => .ok r.1
    | .exn => .exn

/-- Run a sequence of orchestrator operations, propagating exceptions. -/
def runOps (cur : CurriculumService) : List AgentOp → MemoryService →
    PyResult MemoryService
  | [], m => .ok m
  | op :: ops, m =>
    match stepOp cur op m with
    | .ok m' => runOps cur ops m'
    | .exn => .exn

/-! ### Views of the memory state used by the theorems -/

/-- History of the session stored under `sid` (empty when absent). -/
def sessionHistory (m : MemoryService) (sid : String) : List TurnEntry :=
  ((m.sessions sid).map Session.history).getD []

/-- Derived state of the session stored under `sid` (fresh when absent). -/
def sessionDerived (m : MemoryService) (sid : String) : DerivedState :=
  ((m.sessions sid).map Session.derived_state).getD initial_derived_state

/-- The flat log of entries a sequence of `add_turn` inputs appends. -/
def turnLog : List (String × String) → List TurnEntry
  | [] => []
  | p :: ps =>
    { type := "user", text := p.1 } :: { type := "assistant", text := p.2 } ::
      turnLog ps

/-- Fold a sequence of `(user, assistant)` texts through `add_turn`. -/
def runTurns (sid : String) : List (String × String) → MemoryService → MemoryService
  | [], m => m
  | p :: ps, m => runTurns sid ps (m.add_turn sid p.1 p.2)

/-- A memory service with no sessions yet. -/
def emptyMemory (max_turns : Nat) : MemoryService :=
  { max_turns := max_turns, sessions := fun _ => none }

/-! ### Helper lemmas -/

theorem track_mistake_interactions (st : DerivedState) (u a : String) :
    (track_mistake st u a).total_interactions = st.total_interactions := by
  unfold track_mistake
  repeat' split
  all_goals rfl

theorem track_mistake_letter (st : DerivedState) (u a : String) :
    (track_mistake st u a).current_letter = st.current_letter := by
  unfold track_mistake
  repeat' split
  all_goals rfl

theorem track_mistake_child_name (st : DerivedState) (u a : String) :
    (track_mistake st u a).child_name = st.child_name := by
  unfold track_mistake
  repeat' split
  all_goals rfl

theorem update_derived_state_interactions (st : DerivedState) (u a : String) :
    (update_derived_state st u a).total_interactions = st.total_interactions := by
  unfold update_derived_state
  dsimp only
  split <;> rw [track_mistake_interactions]

theorem update_derived_state_letter (st : DerivedState) (u a : String) :
    (update_derived_state st u a).current_letter = st.current_letter := by
  unfold update_derived_state
  dsimp only
  split <;> rw [track_mistake_letter]

theorem update_derived_state_child_name (st : DerivedState) (u a : String) :
    (update_derived_state st u a).child_name =
      match extract_child_name (pyLower u) with
      | some name => some name
      | none => st.child_name := by
  unfold update_derived_state
  dsimp only
  split <;> rw [track_mistake_child_name]

theorem pyTail_suffix (n : Nat) (l : List α) : pyTail n l <:+ l := by
  unfold pyTail
  split
  · exact List.suffix_refl l
  · exact List.drop_suffix _ _

theorem pyTail_length_le (n : Nat) (hn : n ≠ 0) (l : List α) :
    (pyTail n l).length ≤ n := by
  unfold pyTail
  rw [if_neg hn, List.length_drop]
  omega

theorem take_append_take (n : Nat) (x y : List α) :
    (x ++ y.take n).take n = (x ++ y).take n := by
  rw [List.take_append_eq_append_take, List.take_append_eq_append_take,
    List.take_take]
  congr 1
  congr 1
  omega

theorem pyTail_eq_rtake (n : Nat) (hn : n ≠ 0) (l : List α) :
    pyTail n l = l.rtake n := by
  unfold pyTail List.rtake
  rw [if_neg hn]

theorem pyTail_append_left (n : Nat) (l r : List α) :
    pyTail n (pyTail n l ++ r) = pyTail n (l ++ r) := by
  by_cases hn : n = 0
  · simp [pyTail, hn]
  · rw [pyTail_eq_rtake n hn, pyTail_eq_rtake n hn, pyTail_eq_rtake n hn,
      List.rtake_eq_reverse_take_reverse, List.rtake_eq_reverse_take_reverse,
      List.rtake_eq_reverse_take_reverse]
    rw [List.reverse_append, List.reverse_append, List.reverse_reverse,
      take_append_take]



theorem add_turn_spec (m : MemoryService) (sid u a : String) :
    (m.add_turn sid u a).sessions sid = some
      { history := pyTail (m.max_turns * 2)
          (sessionHistory m sid ++
            [{ type := "user", text := u }, { type := "assistant", text := a }])
        derived_state :=
          { update_derived_state (sessionDerived m sid) u a with
              total_interactions :=
                (update_derived_state (sessionDerived m sid) u a).total_interactions + 1 } } ∧
    (m.add_turn sid u a).max_turns = m.max_turns ∧
    ∀ k, k ≠ sid → (m.add_turn sid u a).sessions k = m.sessions k := by
  unfold MemoryService.add_turn MemoryService.get_session MemoryService.setSession
    sessionHistory sessionDerived
  cases h : m.sessions sid with
  | some s =>
    refine ⟨by simp [h], by simp [h], fun k hk => by simp [h, hk]⟩
  | none =>
    refine ⟨by simp [h], by simp [h], fun k hk => by simp [h, hk]⟩

/-! ### C1 — reload on parse failure -/

/-- A concrete curriculum state whose table holds a single "B" lesson. -/
def lessonB : Lesson :=
  { phoneme_clue := "buh", examples := ["Ball"], activity := "find the letter B",
    prompt := "Say buh" }

/-- Curriculum state previously loaded with only the "B" lesson. -/
def curriculumB : CurriculumService :=
  { lessons := [("B", lessonB)], phoneme_map := build_phoneme_map [("B", lessonB)] }

/-- C1 (counterexample): reloading over a parse failure does NOT retain the
previous table and does NOT report failure — starting from a table holding
only a "B" lesson, `reload_lessons` on `JSONDecodeError` returns `True` and
replaces the table (with the built-in default). -/
theorem reload_parse_failure_counterexample :
    (curriculumB.reload_lessons .jsonDecodeError).2 = true ∧
    (curriculumB.reload_lessons .jsonDecodeError).1.lessons ≠ curriculumB.lessons := by
  refine ⟨rfl, ?_⟩
  decide

/-- C1 (amended): on a parse failure of the backing lesson file,
`reload_lessons` replaces the lesson table with the built-in default
single-letter table (and rebuilds the phoneme map from it), and reports
success (returns `True`); it does not retain the previously loaded table. -/
theorem reload_parse_failure_replaces_with_default (c : CurriculumService) :
    c.reload_lessons .jsonDecodeError =
      ({ lessons := default_lessons,
         phoneme_map := build_phoneme_map default_lessons }, true) := rfl

/-! ### C2 — add_turn and empty texts -/

/-- C2 (counterexample): `add_turn` with an empty user text on a fresh
session still appends both entries: the stored history has exactly two
entries (the claim predicts one), the first being the empty-text user entry;
`total_interactions` still increases by exactly 1. -/
theorem add_turn_empty_text_counterexample :
    ((emptyMemory 3).add_turn "s1" "" "hi").sessions "s1" =
      some { history := [{ type := "user", text := "" },
                         { type := "assistant", text := "hi" }]
             derived_state := { initial_derived_state with total_interactions := 1 } } ∧
    (((emptyMemory 3).add_turn "s1" "" "hi").sessions "s1").map
      (fun s => s.history.length) = some 2 := by
  constructor
  · rfl
  · rfl

/-- C2 (amended): every `add_turn` call appends exactly two entries — a user
entry and an assistant entry — even when one or both texts are empty (the
window is then trimmed to the last `max_turns * 2` entries), and
`total_interactions` increases by exactly 1. -/
theorem add_turn_appends_both_entries (m : MemoryService) (sid u a : String) :
    ∃ s, (m.add_turn sid u a).sessions sid = some s ∧
      s.history = pyTail (m.max_turns * 2)
        (sessionHistory m sid ++
          [{ type := "user", text := u }, { type := "assistant", text := a }]) ∧
      s.derived_state.total_interactions =
        (sessionDerived m sid).total_interactions + 1 := by
  refine ⟨_, (add_turn_spec m sid u a).1, rfl, ?_⟩
  simp [update_derived_state_interactions]

/-! ### C4 — get_next_letter endpoints and successors -/

/-- The letters A through Y. -/
def lettersAtoY : List Char := "ABCDEFGHIJKLMNOPQRSTUVWXY".toList

/-- C4: `get_next_letter "Z"` returns `None`; `get_next_letter ""` returns
`"A"`; and for every letter L in A–Y, `get_next_letter` returns the immediate
successor `chr(ord(L) + 1)`. -/
theorem get_next_letter_spec :
    get_next_letter "Z" = .ok none ∧
    get_next_letter "" = .ok (some "A") ∧
    ∀ c ∈ lettersAtoY,
      get_next_letter (String.mk [c]) =
        .ok (some (String.mk [Char.ofNat (c.toNat + 1)])) := by
  refine ⟨by decide, by decide, by decide⟩

/-- C4 (witness): instance at the concrete letter A. -/
theorem get_next_letter_spec_witness :
    get_next_letter (String.mk ['A']) =
      .ok (some (String.mk [Char.ofNat ('A'.toNat + 1)])) :=
  get_next_letter_spec.2.2 'A' (by decide)

/-! ### C9 — name extraction -/

/-- C9: for every prior memory state and session, a turn whose user text is
"Hi, my name is Lily" sets the derived `child_name` to `"Lily"`, and a turn
whose user text is "i am 7" leaves `child_name` at its previous value (the
token "7" fails the alphabetic check). -/
theorem name_extraction_cases (m : MemoryService) (sid r : String) :
    (∃ s, (m.add_turn sid "Hi, my name is Lily" r).sessions sid = some s ∧
      s.derived_state.child_name = some "Lily") ∧
    (∃ s, (m.add_turn sid "i am 7" r).sessions sid = some s ∧
      s.derived_state.child_name = (sessionDerived m sid).child_name) := by
  constructor
  · refine ⟨_, (add_turn_spec m sid "Hi, my name is Lily" r).1, ?_⟩
    show (update_derived_state (sessionDerived m sid) "Hi, my name is Lily" r).child_name
      = some "Lily"
    rw [update_derived_state_child_name]
    rw [show extract_child_name (pyLower "Hi, my name is Lily") = some "Lily" from by decide]
  · refine ⟨_, (add_turn_spec m sid "i am 7" r).1, ?_⟩
    show (update_derived_state (sessionDerived m sid) "i am 7" r).child_name
      = (sessionDerived m sid).child_name
    rw [update_derived_state_child_name]
    rw [show extract_child_name (pyLower "i am 7") = none from by decide]

/-! ### C5 — moderation: is_safe iff no violations; idempotence on clean text -/

/-- C5: for every safety-service instance (any profanity/PII backends) and
every text, `is_safe` is true exactly when the violations list is empty; and
when a text is safe, moderating its returned `cleaned_text` again is safe
(idempotence on already-clean text). -/
theorem moderate_content_spec (s : SafetyService) (text : String) :
    ((s.moderate_content text).is_safe = true ↔
      (s.moderate_content text).violations = []) ∧
    ((s.moderate_content text).is_safe = true →
      (s.moderate_content ((s.moderate_content text).cleaned_text)).is_safe = true) := by
  constructor
  · simp [SafetyService.moderate_content, List.length_eq_zero]
  · intro hsafe
    by_cases h1 : s.contains_profanity text <;>
      by_cases h2 : s.detect_pii text = [] <;>
        by_cases h3 : detect_restricted_topics text = [] <;>
          simp [SafetyService.moderate_content, h1, h2, h3] at hsafe ⊢

/-- A safety service whose external backends never fire (for the witness). -/
def trivialSafety : SafetyService :=
  { contains_profanity := fun _ => false, censor := id, pii_patterns := [] }

/-- C5 (witness): concrete instance at a clean input. -/
theorem moderate_content_spec_witness :
    (trivialSafety.moderate_content "hello").is_safe = true ∧
    (trivialSafety.moderate_content
      ((trivialSafety.moderate_content "hello").cleaned_text)).is_safe = true := by
  have h := moderate_content_spec trivialSafety "hello"
  exact ⟨by decide, h.2 (by decide)⟩

/-! ### C3 — the sliding window invariant -/

theorem runTurns_history (sid : String) (inputs : List (String × String)) :
    ∀ m : MemoryService, inputs ≠ [] →
      ∃ s, (runTurns sid inputs m).sessions sid = some s ∧
        (runTurns sid inputs m).max_turns = m.max_turns ∧
        s.history = pyTail (m.max_turns * 2) (sessionHistory m sid ++ turnLog inputs) := by
  induction inputs with
  | nil => exact fun m h => absurd rfl h
  | cons p ps ih =>
    intro m _
    simp only [runTurns]
    rcases eq_or_ne ps [] with hps | hps
    · subst hps
      obtain ⟨h1, h2, _⟩ := add_turn_spec m sid p.1 p.2
      exact ⟨_, h1, h2, rfl⟩
    · obtain ⟨s, h1, h2, h3⟩ := ih (m.add_turn sid p.1 p.2) hps
      refine ⟨s, h1, ?_, ?_⟩
      · rw [h2, (add_turn_spec m sid p.1 p.2).2.1]
      · rw [h3, (add_turn_spec m sid p.1 p.2).2.1]
        have hsh : sessionHistory (m.add_turn sid p.1 p.2) sid =
            pyTail (m.max_turns * 2) (sessionHistory m sid ++
              [{ type := "user", text := p.1 }, { type := "assistant", text := p.2 }]) := by
          simp only [sessionHistory, (add_turn_spec m sid p.1 p.2).1, Option.map_some',
            Option.getD_some]
        rw [hsh, pyTail_append_left, List.append_assoc]
        rfl

/-- C3: for every session and finite sequence of `add_turn` calls (with a
positive `max_turns`, as configured), the stored history is exactly the
sliding window over everything appended so far: it never exceeds
`max_turns * 2` entries and is always a suffix of the full appended log
(oldest entries evicted first). -/
theorem memory_window_bound (m : MemoryService) (sid : String)
    (inputs : List (String × String)) (hT : 0 < m.max_turns) (hne : inputs ≠ []) :
    ∃ s, (runTurns sid inputs m).sessions sid = some s ∧
      s.history = pyTail (m.max_turns * 2) (sessionHistory m sid ++ turnLog inputs) ∧
      s.history.length ≤ m.max_turns * 2 ∧
      s.history <:+ sessionHistory m sid ++ turnLog inputs := by
  obtain ⟨s, h1, _, h3⟩ := runTurns_history sid inputs m hne
  refine ⟨s, h1, h3, ?_, ?_⟩
  · rw [h3]
    exact pyTail_length_le _ (by omega) _
  · rw [h3]
    exact pyTail_suffix _ _

/-- C3 (witness): with `max_turns = 3`, after four turns on a fresh session
only the last three logical turns (six entries) survive. -/
theorem memory_window_bound_witness :
    ∃ s, (runTurns "kid" [("u1", "a1"), ("u2", "a2"), ("u3", "a3"), ("u4", "a4")]
        (emptyMemory 3)).sessions "kid" = some s ∧
      s.history = pyTail ((emptyMemory 3).max_turns * 2)
        (sessionHistory (emptyMemory 3) "kid" ++
          turnLog [("u1", "a1"), ("u2", "a2"), ("u3", "a3"), ("u4", "a4")]) ∧
      s.history.length ≤ (emptyMemory 3).max_turns * 2 ∧
      s.history <:+ sessionHistory (emptyMemory 3) "kid" ++
        turnLog [("u1", "a1"), ("u2", "a2"), ("u3", "a3"), ("u4", "a4")] :=
  memory_window_bound (emptyMemory 3) "kid"
    [("u1", "a1"), ("u2", "a2"), ("u3", "a3"), ("u4", "a4")] (by decide) (by decide)

/-! ### C6 — the accuracy formula -/

/-- The scoring formula exactly as the specification states it (reference
definition for the refinement comparison; no rounding step):
`|detected ∩ expected| / |expected|`, a flat `+0.2` bonus capped at `1.0`
when the two sets are equal, and `0.0` forced when either set is empty. -/
def spec_accuracy (detected expected : List String) : ℚ :=
  if expected = [] ∨ detected = [] then 0
  else
    let base := ((detected.toFinset ∩ expected.toFinset).card : ℚ) /
      (expected.length : ℚ)
    if detected.toFinset = expected.toFinset then min 1 (base + 1/5) else base

theorem round2_eq_self_of_mul_int (q : ℚ) (k : ℤ) (h : q * 100 = (k : ℚ)) :
    round2 q = q := by
  unfold round2
  rw [h, round_intCast]
  exact ((eq_div_iff (by norm_num)).mpr h).symm

theorem ratio_round2 (mc n : ℕ) (h1 : 0 < n) (h2 : n ≤ 2) (h3 : mc ≤ n) :
    round2 ((mc : ℚ) / n) = (mc : ℚ) / n ∧
    0 ≤ (mc : ℚ) / n ∧ (mc : ℚ) / n ≤ 1 := by
  have h0 : (0 : ℚ) ≤ (mc : ℚ) / n := by positivity
  have hle : (mc : ℚ) / n ≤ 1 := by
    rw [div_le_one (by exact_mod_cast h1)]
    exact_mod_cast h3
  refine ⟨?_, h0, hle⟩
  interval_cases n
  · interval_cases mc
    · exact round2_eq_self_of_mul_int _ 0 (by norm_num)
    · exact round2_eq_self_of_mul_int _ 100 (by norm_num)
  · interval_cases mc
    · exact round2_eq_self_of_mul_int _ 0 (by norm_num)
    · exact round2_eq_self_of_mul_int _ 50 (by norm_num)
    · exact round2_eq_self_of_mul_int _ 100 (by norm_num)

theorem calculate_accuracy_eq (d e : List String) (he : e ≠ []) (hd : d ≠ []) :
    calculate_accuracy d e =
      round2 (if d.toFinset = e.toFinset
        then min 1 (((d.toFinset ∩ e.toFinset).card : ℚ) / e.length + 1 / 5)
        else ((d.toFinset ∩ e.toFinset).card : ℚ) / e.length) := by
  unfold calculate_accuracy
  rw [if_neg he, if_neg hd]

theorem spec_accuracy_eq (d e : List String) (he : e ≠ []) (hd : d ≠ []) :
    spec_accuracy d e =
      (if d.toFinset = e.toFinset
        then min 1 (((d.toFinset ∩ e.toFinset).card : ℚ) / e.length + 1 / 5)
        else ((d.toFinset ∩ e.toFinset).card : ℚ) / e.length) := by
  unfold spec_accuracy
  rw [if_neg (by simp [he, hd] : ¬(e = [] ∨ d = []))]

theorem calculate_accuracy_eq_spec (d e : List String) (hnd : e.Nodup)
    (hpos : 0 < e.length) (hlen : e.length ≤ 2) :
    calculate_accuracy d e = spec_accuracy d e ∧
    0 ≤ spec_accuracy d e ∧ spec_accuracy d e ≤ 1 := by
  have he : e ≠ [] := by
    intro h
    rw [h] at hpos
    simp at hpos
  rcases eq_or_ne d [] with hd | hd
  · subst hd
    constructor
    · unfold calculate_accuracy spec_accuracy
      rw [if_neg he, if_pos rfl, if_pos (Or.inr rfl)]
    · unfold spec_accuracy
      rw [if_pos (Or.inr rfl)]
      norm_num
  · rw [calculate_accuracy_eq d e he hd, spec_accuracy_eq d e he hd]
    have hmn : (d.toFinset ∩ e.toFinset).card ≤ e.length := by
      calc (d.toFinset ∩ e.toFinset).card ≤ e.toFinset.card :=
            Finset.card_le_card Finset.inter_subset_right
        _ = e.length := List.toFinset_card_of_nodup hnd
    by_cases htf : d.toFinset = e.toFinset
    · rw [if_pos htf]
      have hme : ((d.toFinset ∩ e.toFinset).card : ℚ) / e.length = 1 := by
        rw [htf, Finset.inter_self, List.toFinset_card_of_nodup hnd]
        exact div_self (by exact_mod_cast Nat.pos_iff_ne_zero.mp hpos)
      rw [hme]
      have hmin : min (1 : ℚ) (1 + 1 / 5) = 1 := by norm_num
      rw [hmin]
      exact ⟨round2_eq_self_of_mul_int 1 100 (by norm_num), by norm_num, by norm_num⟩
    · rw [if_neg htf]
      exact ratio_round2 _ _ hpos hlen hmn

/-- The letter keys of the A–Z phoneme table. -/
def letter_keys : List String := letter_phonemes.map Prod.fst

theorem letter_phonemes_wf : ∀ L ∈ letter_keys,
    ((letter_phonemes.lookup L).getD []).Nodup ∧
    0 < ((letter_phonemes.lookup L).getD []).length ∧
    ((letter_phonemes.lookup L).getD []).length ≤ 2 := by decide

/-- C6: for every transcript and target letter A–Z, the accuracy computed by
`_calculate_accuracy` over the detected phonemes equals the specification's
formula (`|detected ∩ expected| / |expected|` with the flat +0.2 bonus capped
at 1.0 on exact set equality, forced to 0 when either set is empty); the
result always lies in [0, 1], and an unknown letter (empty expected set)
always scores 0. -/
theorem accuracy_formula_spec (t L : String) (hL : L ∈ letter_keys) :
    calculate_accuracy (detect_phonemes t L) ((letter_phonemes.lookup L).getD []) =
      spec_accuracy (detect_phonemes t L) ((letter_phonemes.lookup L).getD []) ∧
    0 ≤ calculate_accuracy (detect_phonemes t L)
        ((letter_phonemes.lookup L).getD []) ∧
    calculate_accuracy (detect_phonemes t L)
        ((letter_phonemes.lookup L).getD []) ≤ 1 ∧
    (∀ d : List String, calculate_accuracy d [] = 0) := by
  obtain ⟨h1, h2, h3⟩ := letter_phonemes_wf L hL
  obtain ⟨he, hb1, hb2⟩ :=
    calculate_accuracy_eq_spec (detect_phonemes t L) _ h1 h2 h3
  refine ⟨he, he ▸ hb1, he ▸ hb2, fun d => by simp [calculate_accuracy]⟩

/-- C6 (witness): instance at the concrete transcript "ay" and letter A. -/
theorem accuracy_formula_spec_witness :
    calculate_accuracy (detect_phonemes "ay" "A") ((letter_phonemes.lookup "A").getD []) =
      spec_accuracy (detect_phonemes "ay" "A") ((letter_phonemes.lookup "A").getD []) ∧
    0 ≤ calculate_accuracy (detect_phonemes "ay" "A")
        ((letter_phonemes.lookup "A").getD []) ∧
    calculate_accuracy (detect_phonemes "ay" "A")
        ((letter_phonemes.lookup "A").getD []) ≤ 1 ∧
    (∀ d : List String, calculate_accuracy d [] = 0) :=
  accuracy_formula_spec "ay" "A" (by decide)

/-! ### C7 — completion at Z -/

theorem get_next_letter_Z : get_next_letter "Z" = PyResult.ok (none : Option String) := by
  decide

/-- C7: for every session currently at letter Z, a turn judged a correct
pronunciation returns `curriculum_complete = true` in the metadata, makes no
progress call, and the returned memory state is unchanged, so
`current_letter` stays `"Z"`. -/
theorem completion_at_Z (cur : CurriculumService) (m : MemoryService)
    (sid input : String) (s : Session)
    (hs : m.sessions sid = some s)
    (hZ : s.derived_state.current_letter = "Z")
    (hc : (cur.check_pronunciation input "Z").1 = true) :
    ∃ resp md, generate_response cur m sid input = .ok (m, resp, md) ∧
      md.curriculum_complete = true ∧
      md.current_letter = "Z" ∧
      md.progress_made = false ∧
      ((m.sessions sid).map (fun q => q.derived_state.current_letter)) = some "Z" := by
  unfold generate_response MemoryService.get_derived_state MemoryService.get_session
  rw [hs]
  dsimp only
  rw [hZ]
  rcases hcf : cur.check_pronunciation input "Z" with ⟨b, fb⟩
  rw [hcf] at hc
  dsimp only at hc
  subst hc
  rw [if_pos rfl, get_next_letter_Z]
  dsimp only
  refine ⟨_, _, rfl, rfl, rfl, rfl, ?_⟩
  simp [hZ]

/-- Concrete Z lesson, curriculum, session and memory for the C7 witness. -/
def lessonZ : Lesson :=
  { phoneme_clue := "zz", examples := ["Zoo"], activity := "find z",
    prompt := "Say zz" }

def curriculumZ : CurriculumService :=
  { lessons := [("Z", lessonZ)], phoneme_map := build_phoneme_map [("Z", lessonZ)] }

def sessionAtZ : Session :=
  { history := [], derived_state := { initial_derived_state with current_letter := "Z" } }

def memoryAtZ : MemoryService :=
  { max_turns := 3, sessions := fun k => if k = "kid" then some sessionAtZ else none }

/-- C7 (witness): concrete completion turn at Z. -/
theorem completion_at_Z_witness :
    ∃ resp md, generate_response curriculumZ memoryAtZ "kid" "zz" =
        .ok (memoryAtZ, resp, md) ∧
      md.curriculum_complete = true ∧
      md.current_letter = "Z" ∧
      md.progress_made = false ∧
      ((memoryAtZ.sessions "kid").map
        (fun q => q.derived_state.current_letter)) = some "Z" :=
  completion_at_Z curriculumZ memoryAtZ "kid" "zz" sessionAtZ (by decide) (by decide)
    (by decide)

/-! ### C10 — the letter itself is always an accepted sound -/

theorem char_toUpper_of_upper (c : Char) (h1 : 65 ≤ c.toNat) (h2 : c.toNat ≤ 90) :
    c.toUpper = c := by
  have h : ¬(c.toNat ≥ 97 ∧ c.toNat ≤ 122) := by omega
  unfold Char.toUpper
  exact if_neg h

theorem lookup_build_phoneme_map (lessons : Lessons) (k : String) :
    (build_phoneme_map lessons).lookup k =
      (lessons.lookup k).map (fun data =>
        pyLower data.phoneme_clue :: pyLower k :: data.examples.map pyLower) := by
  induction lessons with
  | nil => rfl
  | cons p ps ih =>
    simp only [build_phoneme_map, List.map_cons, List.lookup] at ih ⊢
    cases h : k == p.1 with
    | true =>
      have hk : k = p.1 := eq_of_beq h
      subst hk
      rfl
    | false => exact ih

theorem check_pronunciation_true_of_sound (cur : CurriculumService)
    (input target x : String)
    (hx : x ∈ ((cur.phoneme_map.lookup (pyUpper target)).getD []))
    (hin : pyIn x (pyLower input) = true) :
    (cur.check_pronunciation input target).1 = true := by
  unfold CurriculumService.check_pronunciation
  dsimp only
  have hsome : (((cur.phoneme_map.lookup (pyUpper target)).getD []).find?
      (fun sound => pyIn sound (pyLower input))).isSome := by
    rw [List.find?_isSome]
    exact ⟨x, hx, hin⟩
  obtain ⟨y, hy⟩ := Option.isSome_iff_exists.mp hsome
  rw [hy]

/-- C10: (a) for every curriculum state whose phoneme map was built from its
lesson table, every target letter A–Z that has a lesson entry, and every
input, the pronunciation check accepts whenever the lowercase letter occurs
as a substring of the lowered input (the letter itself is always among the
target sounds); (b) consequently, at current letter A, any input containing
"a" is marked correct and advances the session to letter B. -/
theorem letter_substring_marks_correct :
    (∀ (cur : CurriculumService) (input : String) (c : Char) (lesson : Lesson),
      cur.phoneme_map = build_phoneme_map cur.lessons →
      65 ≤ c.toNat → c.toNat ≤ 90 →
      cur.lessons.lookup (String.mk [c]) = some lesson →
      pyIn (String.mk [c.toLower]) (pyLower input) = true →
      (cur.check_pronunciation input (String.mk [c])).1 = true) ∧
    (∀ (cur : CurriculumService) (m : MemoryService) (sid input : String)
      (s : Session) (lesson : Lesson),
      cur.phoneme_map = build_phoneme_map cur.lessons →
      cur.lessons.lookup "A" = some lesson →
      m.sessions sid = some s →
      s.derived_state.current_letter = "A" →
      pyIn "a" (pyLower input) = true →
      ∃ m' resp md, generate_response cur m sid input = .ok (m', resp, md) ∧
        md.is_correct = true ∧ md.progress_made = true ∧
        md.new_letter = some "B" ∧
        ((m'.sessions sid).map (fun q => q.derived_state.current_letter)) =
          some "B") := by
  have hupper : ∀ (c : Char), 65 ≤ c.toNat → c.toNat ≤ 90 →
      pyUpper (String.mk [c]) = String.mk [c] := by
    intro c h1 h2
    unfold pyUpper
    show String.mk ([c].map Char.toUpper) = String.mk [c]
    rw [List.map_singleton, char_toUpper_of_upper c h1 h2]
  have parta : ∀ (cur : CurriculumService) (input : String) (c : Char) (lesson : Lesson),
      cur.phoneme_map = build_phoneme_map cur.lessons →
      65 ≤ c.toNat → c.toNat ≤ 90 →
      cur.lessons.lookup (String.mk [c]) = some lesson →
      pyIn (String.mk [c.toLower]) (pyLower input) = true →
      (cur.check_pronunciation input (String.mk [c])).1 = true := by
    intro cur input c lesson hpm h1 h2 hlk hin
    refine check_pronunciation_true_of_sound cur input _ (String.mk [c.toLower]) ?_ hin
    rw [hupper c h1 h2, hpm, lookup_build_phoneme_map, hlk]
    show String.mk [c.toLower] ∈
      pyLower lesson.phoneme_clue :: pyLower (String.mk [c]) ::
        lesson.examples.map pyLower
    have : pyLower (String.mk [c]) = String.mk [c.toLower] := rfl
    rw [this]
    exact List.mem_cons_of_mem _ (List.mem_cons_self _ _)
  refine ⟨parta, ?_⟩
  intro cur m sid input s lesson hpm hlk hs hA hin
  have hb : (cur.check_pronunciation input "A").1 = true := by
    have h := parta cur input 'A' lesson hpm (by decide) (by decide)
      (by rw [show String.mk ['A'] = "A" from by decide]; exact hlk)
      (by rw [show String.mk ['A'.toLower] = "a" from by decide]; exact hin)
    rw [show String.mk ['A'] = "A" from by decide] at h
    exact h
  unfold generate_response MemoryService.get_derived_state MemoryService.get_session
  rw [hs]
  dsimp only
  rw [hA]
  rcases hcf : cur.check_pronunciation input "A" with ⟨b, fb⟩
  rw [hcf] at hb
  dsimp only at hb
  subst hb
  rw [if_pos rfl, show get_next_letter "A" = PyResult.ok (some "B") from by decide]
  dsimp only
  unfold MemoryService.progress_letter MemoryService.get_session MemoryService.setSession
  rw [hs]
  dsimp only
  refine ⟨_, _, _, rfl, rfl, rfl, rfl, ?_⟩
  simp

/-- A curriculum over the built-in default table, and a fresh session at A,
for the C10 witness. -/
def defaultCurriculum : CurriculumService :=
  { lessons := default_lessons, phoneme_map := build_phoneme_map default_lessons }

def memoryAtA : MemoryService :=
  { max_turns := 3,
    sessions := fun k =>
      if k = "kid" then some { history := [], derived_state := initial_derived_state }
      else none }

/-- C10 (witness): with the default table, input "cat" (contains "a") is
accepted for letter A and advances the session to B. -/
theorem letter_substring_marks_correct_witness :
    (defaultCurriculum.check_pronunciation "cat" (String.mk ['A'])).1 = true ∧
    ∃ m' resp md, generate_response defaultCurriculum memoryAtA "kid" "cat" =
        .ok (m', resp, md) ∧
      md.is_correct = true ∧ md.progress_made = true ∧
      md.new_letter = some "B" ∧
      ((m'.sessions "kid").map (fun q => q.derived_state.current_letter)) =
        some "B" := by
  constructor
  · exact letter_substring_marks_correct.1 defaultCurriculum "cat" 'A'
      ((default_lessons.headD ("", ⟨"", [], "", ""⟩)).2) rfl (by decide) (by decide)
      (by decide) (by decide)
  · exact letter_substring_marks_correct.2 defaultCurriculum memoryAtA "kid" "cat"
      { history := [], derived_state := initial_derived_state }
      ((default_lessons.headD ("", ⟨"", [], "", ""⟩)).2) rfl (by decide) (by decide)
      (by decide) (by decide)

/-! ### C8 — current_letter never moves backward -/

/-- The alphabetical position of a stored letter: `some (ord L - ord A)` for
a single uppercase letter A–Z, `none` otherwise. -/
def letterRank (s : String) : Option Nat :=
  match s.toList with
  | [c] => if 65 ≤ c.toNat ∧ c.toNat ≤ 90 then some (c.toNat - 65) else none
  | _ => none

/-- Every stored session letter is a single uppercase letter A–Z. -/
def ValidLetters (m : MemoryService) : Prop :=
  ∀ sid s, m.sessions sid = some s →
    (letterRank s.derived_state.current_letter).isSome = true

/-- Alphabetical position of a session's current letter (0 when the session
does not exist yet or its letter is invalid). -/
def rank (m : MemoryService) (sid : String) : Nat :=
  ((m.sessions sid).map
    (fun s => (letterRank s.derived_state.current_letter).getD 0)).getD 0

theorem letterRank_isSome_iff (L : String) :
    (letterRank L).isSome = true ↔
      ∃ c, L = String.mk [c] ∧ 65 ≤ c.toNat ∧ c.toNat ≤ 90 := by
  constructor
  · intro h
    unfold letterRank at h
    cases hL : L.toList with
    | nil => rw [hL] at h; simp at h
    | cons c cs =>
      cases cs with
      | nil =>
        rw [hL] at h
        dsimp only at h
        have hmk : L = String.mk [c] := by
          have : String.mk L.data = L := rfl
          rw [← this, show L.data = L.toList from rfl, hL]
        by_cases hb : 65 ≤ c.toNat ∧ c.toNat ≤ 90
        · exact ⟨c, hmk, hb.1, hb.2⟩
        · rw [if_neg hb] at h
          simp at h
      | cons d rest => rw [hL] at h; simp at h
  · rintro ⟨c, rfl, h1, h2⟩
    show (if 65 ≤ c.toNat ∧ c.toNat ≤ 90 then some (c.toNat - 65) else none).isSome = true
    rw [if_pos ⟨h1, h2⟩]
    rfl

theorem char_toNat_ofNat (n : Nat) (h : n < 55296) : (Char.ofNat n).toNat = n := by
  have hv : n.isValidChar := Or.inl h
  unfold Char.ofNat
  rw [dif_pos hv]
  simp [Char.ofNatAux, Char.toNat, UInt32.toNat]

theorem get_next_letter_of_upper (c : Char) (h1 : 65 ≤ c.toNat) (h2 : c.toNat ≤ 90) :
    get_next_letter (String.mk [c]) =
      if c.toNat = 90 then PyResult.ok none
      else PyResult.ok (some (String.mk [Char.ofNat (c.toNat + 1)])) := by
  have hne : String.mk [c] ≠ "" := by
    intro h
    have := congrArg String.data h
    simp at this
  unfold get_next_letter
  rw [if_neg hne]
  show (match (String.mk ([c].map Char.toUpper)).toList with
    | [c] => if c.toNat + 1 ≤ 90 then
        PyResult.ok (some (String.mk [Char.ofNat (c.toNat + 1)]))
      else PyResult.ok none
    | _ => PyResult.exn) = _
  rw [List.map_singleton, char_toUpper_of_upper c h1 h2]
  show (if c.toNat + 1 ≤ 90 then
      PyResult.ok (some (String.mk [Char.ofNat (c.toNat + 1)]))
    else PyResult.ok none) = _
  by_cases hz : c.toNat = 90
  · rw [if_neg (by omega), if_pos hz]
  · rw [if_pos (by omega), if_neg hz]

theorem letterRank_mk (c : Char) (h1 : 65 ≤ c.toNat) (h2 : c.toNat ≤ 90) :
    letterRank (String.mk [c]) = some (c.toNat - 65) := by
  show (if 65 ≤ c.toNat ∧ c.toNat ≤ 90 then some (c.toNat - 65) else none) = _
  rw [if_pos ⟨h1, h2⟩]

theorem get_session_snd_sessions (m : MemoryService) (sid k : String) :
    ((m.get_session sid).2).sessions k =
      if k = sid then some (m.get_session sid).1 else m.sessions k := by
  unfold MemoryService.get_session MemoryService.setSession
  cases h : m.sessions sid with
  | some s =>
    dsimp only
    by_cases hk : k = sid
    · rw [if_pos hk, hk, h]
    · rw [if_neg hk]
  | none => rfl

theorem get_session_fst_valid (m : MemoryService) (sid : String)
    (hm : ValidLetters m) :
    (letterRank (m.get_session sid).1.derived_state.current_letter).isSome = true := by
  unfold MemoryService.get_session
  cases h : m.sessions sid with
  | some s => exact hm sid s h
  | none =>
    exact (by decide :
      (letterRank initial_derived_state.current_letter).isSome = true)

theorem valid_insert (m : MemoryService) (sid : String) (hm : ValidLetters m) :
    ValidLetters ((m.get_session sid).2) := by
  intro k q hk
  rw [get_session_snd_sessions] at hk
  by_cases h : k = sid
  · rw [if_pos h] at hk
    injection hk with hk
    subst hk
    exact get_session_fst_valid m sid hm
  · rw [if_neg h] at hk
    exact hm k q hk

theorem rank_get_session (m : MemoryService) (sid k : String) :
    rank ((m.get_session sid).2) k = rank m k := by
  unfold rank
  rw [get_session_snd_sessions]
  by_cases h : k = sid
  · rw [if_pos h, h]
    unfold MemoryService.get_session
    cases hs : m.sessions sid with
    | some s => rfl
    | none => rfl
  · rw [if_neg h]

theorem progress_letter_sessions (m : MemoryService) (sid tl k : String) :
    ((m.progress_letter sid tl).1).sessions k =
      if k = sid then some { (m.get_session sid).1 with derived_state :=
        { (m.get_session sid).1.derived_state with current_letter := tl } }
      else m.sessions k := by
  unfold MemoryService.progress_letter MemoryService.get_session MemoryService.setSession
  cases hs : m.sessions sid with
  | some s => dsimp only
  | none =>
    dsimp only
    by_cases h : k = sid
    · simp only [if_pos h]
    · simp only [if_neg h]

theorem progress_step_mono (m : MemoryService) (sid : String) (c : Char)
    (s : Session) (hm : ValidLetters m)
    (hs : m.sessions sid = some s)
    (hL : s.derived_state.current_letter = String.mk [c])
    (h1 : 65 ≤ c.toNat) (h2 : c.toNat ≤ 89) :
    ValidLetters (m.progress_letter sid (String.mk [Char.ofNat (c.toNat + 1)])).1 ∧
    ∀ k, rank m k ≤
      rank (m.progress_letter sid (String.mk [Char.ofNat (c.toNat + 1)])).1 k := by
  have htn : (Char.ofNat (c.toNat + 1)).toNat = c.toNat + 1 :=
    char_toNat_ofNat _ (by omega)
  have hfst : (m.get_session sid).1 = s := by
    unfold MemoryService.get_session
    rw [hs]
  have hrnew : letterRank (String.mk [Char.ofNat (c.toNat + 1)]) =
      some (c.toNat + 1 - 65) := by
    rw [letterRank_mk _ (by omega) (by omega), htn]
  constructor
  · intro k q hk
    rw [progress_letter_sessions] at hk
    by_cases h : k = sid
    · rw [if_pos h] at hk
      injection hk with hk
      subst hk
      dsimp only
      rw [hrnew]
      rfl
    · rw [if_neg h] at hk
      exact hm k q hk
  · intro k
    unfold rank
    rw [progress_letter_sessions]
    by_cases h : k = sid
    · rw [if_pos h, h, hs, hfst]
      simp only [Option.map_some', Option.getD_some]
      rw [hL, hrnew, letterRank_mk c h1 (by omega)]
      simp only [Option.getD_some]
      omega
    · rw [if_neg h]

theorem generate_response_mono_aux (cur : CurriculumService) (m : MemoryService)
    (sid input : String) (s1 : Session) (m1 : MemoryService)
    (hgs : m.get_session sid = (s1, m1))
    (hvm1 : ValidLetters m1) (hs1 : m1.sessions sid = some s1) :
    ∃ m' r md, generate_response cur m sid input = .ok (m', r, md) ∧
      ValidLetters m' ∧ ∀ k, rank m1 k ≤ rank m' k := by
  obtain ⟨c, hcL, h1, h2⟩ := (letterRank_isSome_iff _).mp (hvm1 sid s1 hs1)
  unfold generate_response MemoryService.get_derived_state
  rw [hgs]
  dsimp only
  rw [hcL]
  rcases hcf : cur.check_pronunciation input (String.mk [c]) with ⟨b, fb⟩
  cases b with
  | false =>
    dsimp only
    rw [if_neg Bool.false_ne_true]
    exact ⟨m1, _, _, rfl, hvm1, fun k => le_refl _⟩
  | true =>
    dsimp only
    rw [if_pos rfl, get_next_letter_of_upper c h1 h2]
    by_cases hz : c.toNat = 90
    · rw [if_pos hz]
      dsimp only
      exact ⟨m1, _, _, rfl, hvm1, fun k => le_refl _⟩
    · rw [if_neg hz]
      dsimp only
      obtain ⟨hval, hrk⟩ := progress_step_mono m1 sid c s1 hvm1 hs1 hcL h1 (by omega)
      exact ⟨_, _, _, rfl, hval, hrk⟩

theorem handle_special_mono_aux (cur : CurriculumService) (m : MemoryService)
    (sid input : String) (s1 : Session) (m1 : MemoryService)
    (hgs : m.get_session sid = (s1, m1))
    (hm : ValidLetters m)
    (hvm1 : ValidLetters m1) (hs1 : m1.sessions sid = some s1)
    (hr1 : ∀ k, rank m1 k = rank m k) :
    ∃ m' o, handle_special_commands cur m sid input = .ok (m', o) ∧
      ValidLetters m' ∧ ∀ k, rank m k ≤ rank m' k := by
  obtain ⟨c, hcL, h1, h2⟩ := (letterRank_isSome_iff _).mp (hvm1 sid s1 hs1)
  unfold handle_special_commands MemoryService.get_derived_state
    MemoryService.get_conversation_history
  rw [hgs]
  dsimp only
  by_cases hhelp : pyStrip (pyLower input) = "help" ∨
      pyStrip (pyLower input) = "what do i do" ∨
      pyStrip (pyLower input) = "i don\x27t know"
  · rw [if_pos hhelp]
    cases hgl : cur.get_lesson s1.derived_state.current_letter with
    | some lesson => exact ⟨m1, _, rfl, hvm1, fun k => le_of_eq (hr1 k).symm⟩
    | none => exact ⟨m1, _, rfl, hvm1, fun k => le_of_eq (hr1 k).symm⟩
  · rw [if_neg hhelp]
    by_cases hrep : pyStrip (pyLower input) = "repeat" ∨
        pyStrip (pyLower input) = "say that again" ∨
        pyStrip (pyLower input) = "what"
    · rw [if_pos hrep, if_pos (by decide : (2 : Nat) ≠ 0)]
      cases hgl : (pyTail 2 s1.history).getLast? with
      | some entry =>
        dsimp only
        by_cases ht : entry.type = "assistant"
        · rw [if_pos ht]
          exact ⟨m1, _, rfl, hvm1, fun k => le_of_eq (hr1 k).symm⟩
        · rw [if_neg ht]
          exact ⟨m1, _, rfl, hvm1, fun k => le_of_eq (hr1 k).symm⟩
      | none => exact ⟨m1, _, rfl, hvm1, fun k => le_of_eq (hr1 k).symm⟩
    · rw [if_neg hrep]
      by_cases hskip : (pyIn "next letter" (pyStrip (pyLower input)) ||
          pyIn "skip" (pyStrip (pyLower input))) = true
      · rw [if_pos hskip, hcL, get_next_letter_of_upper c h1 h2]
        by_cases hz : c.toNat = 90
        · rw [if_pos hz]
          dsimp only
          exact ⟨m1, _, rfl, hvm1, fun k => le_of_eq (hr1 k).symm⟩
        · rw [if_neg hz]
          dsimp only
          obtain ⟨hval, hrk⟩ := progress_step_mono m1 sid c s1 hvm1 hs1 hcL h1 (by omega)
          exact ⟨_, _, rfl, hval,
            fun k => le_trans (le_of_eq (hr1 k).symm) (hrk k)⟩
      · rw [if_neg hskip]
        exact ⟨m, _, rfl, hm, fun k => le_refl _⟩

theorem generate_response_mono (cur : CurriculumService) (m : MemoryService)
    (sid input : String) (hm : ValidLetters m) :
    ∃ m' r md, generate_response cur m sid input = .ok (m', r, md) ∧
      ValidLetters m' ∧ ∀ k, rank m k ≤ rank m' k := by
  obtain ⟨m', r, md, he, hv, hr⟩ := generate_response_mono_aux cur m sid input
    (m.get_session sid).1 (m.get_session sid).2 rfl
    (valid_insert m sid hm)
    (by rw [get_session_snd_sessions, if_pos rfl])
  exact ⟨m', r, md, he, hv,
    fun k => le_trans (le_of_eq (rank_get_session m sid k).symm) (hr k)⟩

theorem handle_special_mono (cur : CurriculumService) (m : MemoryService)
    (sid input : String) (hm : ValidLetters m) :
    ∃ m' o, handle_special_commands cur m sid input = .ok (m', o) ∧
      ValidLetters m' ∧ ∀ k, rank m k ≤ rank m' k :=
  handle_special_mono_aux cur m sid input
    (m.get_session sid).1 (m.get_session sid).2 rfl hm
    (valid_insert m sid hm)
    (by rw [get_session_snd_sessions, if_pos rfl])
    (fun k => rank_get_session m sid k)

theorem step_mono (cur : CurriculumService) (op : AgentOp) (m : MemoryService)
    (hm : ValidLetters m) :
    ∃ m', stepOp cur op m = .ok m' ∧ ValidLetters m' ∧
      ∀ k, rank m k ≤ rank m' k := by
  cases op with
  | respond sid input =>
    obtain ⟨m', r, md, he, hv, hr⟩ := generate_response_mono cur m sid input hm
    refine ⟨m', ?_, hv, hr⟩
    unfold stepOp
    dsimp only
    rw [he]
  | special sid input =>
    obtain ⟨m', o, he, hv, hr⟩ := handle_special_mono cur m sid input hm
    refine ⟨m', ?_, hv, hr⟩
    unfold stepOp
    dsimp only
    rw [he]

theorem runOps_mono (cur : CurriculumService) (ops : List AgentOp) :
    ∀ m : MemoryService, ValidLetters m →
      ∃ m', runOps cur ops m = .ok m' ∧ ValidLetters m' ∧
        ∀ k, rank m k ≤ rank m' k := by
  induction ops with
  | nil => exact fun m hm => ⟨m, rfl, hm, fun k => le_refl _⟩
  | cons op ops ih =>
    intro m hm
    obtain ⟨m1, h1, hv1, hr1⟩ := step_mono cur op m hm
    obtain ⟨m', h2, hv2, hr2⟩ := ih m1 hv1
    refine ⟨m', ?_, hv2, fun k => le_trans (hr1 k) (hr2 k)⟩
    unfold runOps
    rw [h1]
    exact h2

/-- C8: over every sequence of orchestrator operations (tutoring turns and
special-command dispatches, including skip) starting from a memory state
whose stored letters are all single uppercase letters A–Z (as every reachable
state is, sessions being created at "A"), no operation raises, the letter
invariant is preserved, and every session's alphabetical position is
non-decreasing: `current_letter` never moves backward. -/
theorem orchestrator_letter_monotone (cur : CurriculumService)
    (ops : List AgentOp) (m : MemoryService) (hm : ValidLetters m) :
    ∃ m', runOps cur ops m = .ok m' ∧ ValidLetters m' ∧
      ∀ sid, rank m sid ≤ rank m' sid :=
  runOps_mono cur ops m hm

/-- C8 (witness): a concrete run (one accepted turn, then a skip) from the
empty memory state. -/
theorem orchestrator_letter_monotone_witness :
    ∃ m', runOps defaultCurriculum
        [AgentOp.respond "kid" "apple", AgentOp.special "kid" "skip"]
        (emptyMemory 3) = .ok m' ∧ ValidLetters m' ∧
      ∀ sid, rank (emptyMemory 3) sid ≤ rank m' sid :=
  orchestrator_letter_monotone defaultCurriculum
    [AgentOp.respond "kid" "apple", AgentOp.special "kid" "skip"]
    (emptyMemory 3) (fun _ _ h => nomatch h)

end KidSafe
